import Mathlib

/-!
Verification development for the Florida inmate-details pipeline
(`project.py`): a shallow embedding of the extractor
(`fetch_inmate_details`), the repository (`store_inmate_details`, a
MongoDB `update_one` with a set-modifier and upsert), and the
orchestrator (`fetch_and_store_inmate_details`,
`fetch_and_display_inmate_details`), together with theorems about the
testable properties of the system.
-/

/-! ## Python string strip -/

/-- Whitespace recognised by the Python `str.strip()` used throughout the
extractor (ASCII whitespace characters). -/
def isSpaceB (c : Char) : Bool :=
  c = ' ' || c = '\t' || c = '\n' || c = '\r' || c = '\x0b' || c = '\x0c'

/-- Removing leading and trailing whitespace from a character list, as
Python `str.strip()` does. -/
def stripChars (l : List Char) : List Char :=
  List.rdropWhile isSpaceB (List.dropWhile isSpaceB l)

/-- Embedding of `str.strip()`. -/
def pyStrip (s : String) : String :=
  String.mk (stripChars s.data)

/-! ## Data model: the record shape built by the extractor -/

structure SentenceEntry where
  offenseDate : String
  offense : String
  sentenceDate : String
  county : String
  caseNumber : String
  sentenceLength : String
  deriving DecidableEq

structure IncarcerationEntry where
  dateIn : String
  dateOut : String
  deriving DecidableEq

structure InmateRecord where
  dcNumber : String
  name : String
  race : String
  sex : String
  birthDate : String
  aliases : String
  sentenceHistory : List SentenceEntry
  incarcerationHistory : List IncarcerationEntry
  deriving DecidableEq

/-- The parsed document as `fetch_inmate_details` observes it through
BeautifulSoup.  Each field is the text the code reads at the
corresponding structural anchor; `none` means the anchor (or its
expected child) is missing, in which case the Python attribute access
raises.  `titleStr` is `soup.title.string`; `nameTh`, `raceTh`,
`sexTh`, `birthTh` are the sibling-cell texts of the four labelled
header cells; `sentenceRows` and `incarcerationRows` are the rows
(lists of cell texts, header row included) of the two anchored tables;
`aliasP` is the text of the paragraph in the alias block. -/
structure SoupDoc where
  titleStr : Option String
  nameTh : Option String
  raceTh : Option String
  sexTh : Option String
  birthTh : Option String
  sentenceRows : Option (List (List String))
  aliasP : Option String
  incarcerationRows : Option (List (List String))
  deriving DecidableEq

/-- The page marker checked by `fetch_inmate_details` on the title. -/
def detailMarker : String := "Inmate Population Information Detail"

def startsWithL : List Char → List Char → Bool
  | [], _ => true
  | _ :: _, [] => false
  | a :: as, b :: bs => a = b && startsWithL as bs

/-- Substring containment on character lists, the semantics of the
Python `in` operator on strings. -/
def containsSub (needle : List Char) : List Char → Bool
  | [] => startsWithL needle []
  | b :: bs => startsWithL needle (b :: bs) || containsSub needle bs

/-- The check on line 56 of `project.py`: the detail marker occurring
in the page title. -/
def hasMarker (t : String) : Bool :=
  containsSub detailMarker.data t.data

/-- Outcome of `fetch_inmate_details`.  The Python function has four
distinct behaviours: it raises an exception (attribute or index error
on a missing anchor or a short row), returns the initial empty dict
(page marker absent), returns `None` (name anchor missing, or the
essential `Name`/`Race` values empty), or returns the fully built
dict. -/
inductive ExtractResult where
  | raised
  | emptyDict
  | retNone
  | ok (r : InmateRecord)
  deriving DecidableEq

/-- Positional mapping of one sentence-table row into the fixed
6-column schema (lines 80 to 87); a row with fewer than six cells makes
the Python subscript raise, modelled by `none`. -/
def rowToSentence : List String → Option SentenceEntry
  | c0 :: c1 :: c2 :: c3 :: c4 :: c5 :: _ =>
      some { offenseDate := pyStrip c0, offense := pyStrip c1,
             sentenceDate := pyStrip c2, county := pyStrip c3,
             caseNumber := pyStrip c4, sentenceLength := pyStrip c5 }
  | _ => none

def rowsToSentences : List (List String) → Option (List SentenceEntry)
  | [] => some []
  | row :: rest =>
      match rowToSentence row, rowsToSentences rest with
      | some e, some l => some (e :: l)
      | _, _ => none

/-- Positional mapping of one incarceration-table row (lines 101 to
104). -/
def rowToIncarceration : List String → Option IncarcerationEntry
  | c0 :: c1 :: _ => some { dateIn := pyStrip c0, dateOut := pyStrip c1 }
  | _ => none

def rowsToIncarcerations : List (List String) → Option (List IncarcerationEntry)
  | [] => some []
  | row :: rest =>
      match rowToIncarceration row, rowsToIncarcerations rest with
      | some e, some l => some (e :: l)
      | _, _ => none

/-- Embedding of `fetch_inmate_details` (lines 40 to 113 of
`project.py`).  The match order follows the evaluation order of the
source: title access, marker test, name anchor, the dict literal
reading race, sex and birth date, the essential-field emptiness check,
the sentence table, the alias block, the incarceration table. -/
def fetch_inmate_details (dc : String) (doc : SoupDoc) : ExtractResult :=
  match doc.titleStr with
  | none => .raised
  | some t =>
    if hasMarker t then
      match doc.nameTh with
      | none => .retNone
      | some ns =>
        match doc.raceTh with
        | none => .raised
        | some rs =>
          match doc.sexTh with
          | none => .raised
          | some ss =>
            match doc.birthTh with
            | none => .raised
            | some bs =>
              if pyStrip ns = "" ∨ pyStrip rs = "" then .retNone
              else
                match doc.sentenceRows with
                | none => .raised
                | some srows =>
                  match rowsToSentences (srows.drop 1) with
                  | none => .raised
                  | some sh =>
                    match doc.aliasP with
                    | none => .raised
                    | some al =>
                      match doc.incarcerationRows with
                      | none => .raised
                      | some irows =>
                        match rowsToIncarcerations (irows.drop 1) with
                        | none => .raised
                        | some ih =>
                          .ok { dcNumber := dc, name := pyStrip ns,
                                race := pyStrip rs, sex := pyStrip ss,
                                birthDate := pyStrip bs, aliases := pyStrip al,
                                sentenceHistory := sh,
                                incarcerationHistory := ih }
    else .emptyDict

/-! ## Repository

`store_inmate_details` issues a MongoDB
`update_one({'DC Number': key}, {'$set': fields}, upsert=True)` inside a
try/except that logs and swallows every exception (lines 115 to 141).
The collection is modelled as a list of documents, a document as an
association list from field names to BSON values; the set-modifier
updates the named fields of the first matching document, or, with
upsert, inserts a document built from the filter and the modifier. -/

inductive BsonValue where
  | str (s : String)
  | sentList (l : List SentenceEntry)
  | incList (l : List IncarcerationEntry)
  deriving DecidableEq

/-- A stored document: field names to values, in field order. -/
abbrev StoredDoc := List (String × BsonValue)

abbrev Collection := List StoredDoc

/-- First value stored under a field name. -/
def getField (d : StoredDoc) (k : String) : Option BsonValue :=
  match d with
  | [] => none
  | (k1, v1) :: rest => if k1 = k then some v1 else getField rest k

/-- Set one field: replace its first occurrence, or append it. -/
def setField (d : StoredDoc) (k : String) (v : BsonValue) : StoredDoc :=
  match d with
  | [] => [(k, v)]
  | (k1, v1) :: rest =>
      if k1 = k then (k, v) :: rest else (k1, v1) :: setField rest k v

/-- Apply a set-modifier: set each listed field in order. -/
def setFields (d : StoredDoc) (fields : List (String × BsonValue)) : StoredDoc :=
  match fields with
  | [] => d
  | (k, v) :: rest => setFields (setField d k v) rest

/-- The dictionary `fetch_inmate_details` builds, in Python dict
insertion order (lines 62 to 107): DC Number, Name, Race, Sex, Birth
Date, then the sentence history, the aliases, the incarceration
history. -/
def recordFields (r : InmateRecord) : List (String × BsonValue) :=
  [("DC Number", .str r.dcNumber), ("Name", .str r.name),
   ("Race", .str r.race), ("Sex", .str r.sex),
   ("Birth Date", .str r.birthDate),
   ("Current Prison Sentence History", .sentList r.sentenceHistory),
   ("Aliases", .str r.aliases),
   ("Incarceration History", .incList r.incarcerationHistory)]

/-- Whether a document matches the filter `{'DC Number': key}`. -/
def matchesKey (d : StoredDoc) (key : String) : Bool :=
  getField d "DC Number" = some (.str key)

/-- MongoDB `update_one` with a set-modifier and `upsert=True`: update
the first document matching the filter; if none matches, insert a
document built from the filter equality and the modifier. -/
def update_one (coll : Collection) (key : String)
    (fields : List (String × BsonValue)) : Collection :=
  match coll with
  | [] => [setFields [("DC Number", .str key)] fields]
  | d :: rest =>
      if matchesKey d key then setFields d fields :: rest
      else d :: update_one rest key fields

/-- The repository write for one record. -/
def upsert (coll : Collection) (r : InmateRecord) : Collection :=
  update_one coll r.dcNumber (recordFields r)

/-- First stored document matching the filter `{'DC Number': key}`. -/
def findDoc (coll : Collection) (key : String) : Option StoredDoc :=
  match coll with
  | [] => none
  | d :: rest => if matchesKey d key then some d else findDoc rest key

/-- Embedding of `store_inmate_details` (lines 115 to 141): the whole
body sits in a try/except that logs and swallows any storage failure,
so a failing store (`storeOk = false`, covering an unreachable server
or a rejected write) leaves the collection unchanged and raises nothing
to the caller. -/
def store_inmate_details (storeOk : Bool) (coll : Collection)
    (r : InmateRecord) : Collection :=
  if storeOk then upsert coll r else coll

/-! ## Orchestrator

`fetch_and_store_inmate_details` runs on the worker thread; every
outcome it delivers to the GUI goes through `root.after(0, ...)`, which
queues the call onto the Tk main loop.  The trace of presentation
effects distinguishes a marshalled handoff from a hypothetical direct
call into the presentation sink from the worker (which the code never
performs). -/

inductive Outcome where
  | record (r : InmateRecord)
  | errorMsg (m : String)
  deriving DecidableEq

inductive Effect where
  | marshal (o : Outcome)
  | directSink (o : Outcome)
  deriving DecidableEq

def isMarshalEffect : Effect → Bool
  | .marshal _ => true
  | .directSink _ => false

/-- Embedding of `fetch_and_store_inmate_details` (lines 211 to 225):
fetch, then on a truthy result store and queue the record for display;
on a falsy result (empty dict or `None`) queue a generic failure
message; on an exception queue the caught-error message.  Returns the
collection after the run and the trace of presentation effects. -/
def fetch_and_store_inmate_details (dc : String) (doc : SoupDoc)
    (storeOk : Bool) (coll : Collection) : Collection × List Effect :=
  match fetch_inmate_details dc doc with
  | .ok r =>
      (store_inmate_details storeOk coll r,
       [Effect.marshal (Outcome.record r)])
  | .raised => (coll, [Effect.marshal (Outcome.errorMsg "An error occurred")])
  | .emptyDict =>
      (coll,
       [Effect.marshal (Outcome.errorMsg
         "Failed to retrieve valid inmate details.")])
  | .retNone =>
      (coll,
       [Effect.marshal (Outcome.errorMsg
         "Failed to retrieve valid inmate details.")])

inductive DispatchResult where
  | spawned (run : Collection × List Effect)
  | inputWarning
  deriving DecidableEq

/-- Embedding of `fetch_and_display_inmate_details` (lines 201 to 209):
a truthy (non-empty) entry text spawns the worker; an empty entry shows
the Input Error warning synchronously and spawns nothing. -/
def fetch_and_display_inmate_details (entryText : String) (doc : SoupDoc)
    (storeOk : Bool) (coll : Collection) : DispatchResult :=
  if entryText ≠ "" then
    .spawned (fetch_and_store_inmate_details entryText doc storeOk coll)
  else .inputWarning

/-! ## Derived shapes and fixtures -/

/-- The positional 6-column reading of one sentence row. -/
def sentenceOfRow (row : List String) : SentenceEntry :=
  { offenseDate := pyStrip (row.getD 0 ""), offense := pyStrip (row.getD 1 "")
  , sentenceDate := pyStrip (row.getD 2 ""), county := pyStrip (row.getD 3 "")
  , caseNumber := pyStrip (row.getD 4 "")
  , sentenceLength := pyStrip (row.getD 5 "") }

/-- The positional 2-column reading of one incarceration row. -/
def incarcerationOfRow (row : List String) : IncarcerationEntry :=
  { dateIn := pyStrip (row.getD 0 ""), dateOut := pyStrip (row.getD 1 "") }

/-- The record a well-formed document extracts to: trimmed scalars and
the two positional row mappings in document order. -/
def extractedRecord (dc ns rs ss bs al : String)
    (srows irows : List (List String)) : InmateRecord :=
  { dcNumber := dc, name := pyStrip ns, race := pyStrip rs
  , sex := pyStrip ss, birthDate := pyStrip bs, aliases := pyStrip al
  , sentenceHistory := (srows.drop 1).map sentenceOfRow
  , incarcerationHistory := (irows.drop 1).map incarcerationOfRow }

/-- All six cells of a sentence entry are fixed by another strip. -/
def trimmedSentence (e : SentenceEntry) : Prop :=
  pyStrip e.offenseDate = e.offenseDate ∧ pyStrip e.offense = e.offense
    ∧ pyStrip e.sentenceDate = e.sentenceDate ∧ pyStrip e.county = e.county
    ∧ pyStrip e.caseNumber = e.caseNumber
    ∧ pyStrip e.sentenceLength = e.sentenceLength

/-- Both cells of an incarceration entry are fixed by another strip. -/
def trimmedIncarceration (e : IncarcerationEntry) : Prop :=
  pyStrip e.dateIn = e.dateIn ∧ pyStrip e.dateOut = e.dateOut

/-- Every scalar field and every history cell is fixed by another
strip; the DC Number is deliberately not included. -/
def trimmedRecord (r : InmateRecord) : Prop :=
  pyStrip r.name = r.name ∧ pyStrip r.race = r.race
    ∧ pyStrip r.sex = r.sex ∧ pyStrip r.birthDate = r.birthDate
    ∧ pyStrip r.aliases = r.aliases
    ∧ (∀ e ∈ r.sentenceHistory, trimmedSentence e)
    ∧ (∀ e ∈ r.incarcerationHistory, trimmedIncarceration e)

/-- The Scenario A mock document: marker present, the four labelled
fields, one sentence row after the header, the alias paragraph, and an
incarceration table holding only its header row. -/
def scenarioADoc : SoupDoc :=
  { titleStr := some "Inmate Population Information Detail"
  , nameTh := some "Jane Doe"
  , raceTh := some "White"
  , sexTh := some "Female"
  , birthTh := some "1/1/1980"
  , sentenceRows := some
      [["Offense Date", "Offense", "Sentence Date", "County",
        "Case Number", "Prison Sentence Length"],
       ["1/1/2000", "Theft", "2/1/2000", "Dade", "00-1", "5 Years"]]
  , aliasP := some "Jane D."
  , incarcerationRows := some [["Date In-Custody", "Date Out-Custody"]] }

/-- The record Scenario A must deliver and store. -/
def scenarioARec : InmateRecord :=
  { dcNumber := "123456", name := "Jane Doe", race := "White"
  , sex := "Female", birthDate := "1/1/1980", aliases := "Jane D."
  , sentenceHistory :=
      [{ offenseDate := "1/1/2000", offense := "Theft"
       , sentenceDate := "2/1/2000", county := "Dade"
       , caseNumber := "00-1", sentenceLength := "5 Years" }]
  , incarcerationHistory := [] }

/-- A second record under the Scenario A key, every field different. -/
def recB : InmateRecord :=
  { dcNumber := "123456", name := "Janet Roe", race := "Black"
  , sex := "Unknown", birthDate := "2/2/1982", aliases := "J. R."
  , sentenceHistory := [], incarcerationHistory := [] }

/-- A response with no title text at all (`soup.title.string` is not a
string), e.g. a bare error body: the attribute access raises. -/
def docNoTitle : SoupDoc :=
  { titleStr := none, nameTh := none, raceTh := none, sexTh := none
  , birthTh := none, sentenceRows := none, aliasP := none
  , incarcerationRows := none }

/-- A page whose title lacks the detail marker (the not-found page). -/
def docNoMarker : SoupDoc :=
  { titleStr := some "Offender Search", nameTh := none, raceTh := none
  , sexTh := none, birthTh := none, sentenceRows := none, aliasP := none
  , incarcerationRows := none }

/-- Scenario C: the detail marker is present but the page has no Race
row, so the Race label anchor is missing. -/
def docNoRaceLabel : SoupDoc :=
  { scenarioADoc with raceTh := none }

/-- A detail page whose Race cell is present but empty. -/
def docEmptyRace : SoupDoc :=
  { scenarioADoc with raceTh := some " " }

/-- A detail page missing only the alias block. -/
def docNoAlias : SoupDoc :=
  { scenarioADoc with aliasP := none }

/-! ## Theorems -/

theorem dropWhile_cons_head_false {p : Char → Bool} {a : Char} {t : List Char}
    (h : List.dropWhile p (a :: t) = a :: t) : p a = false := by
  by_contra hpa
  rw [Bool.not_eq_false] at hpa
  rw [List.dropWhile_cons_of_pos hpa] at h
  have hle : (List.dropWhile p t).length ≤ t.length :=
    List.IsSuffix.length_le (List.dropWhile_suffix p)
  have hlen := congrArg List.length h
  simp only [List.length_cons] at hlen
  omega

theorem stripChars_idem (l : List Char) : stripChars (stripChars l) = stripChars l := by
  unfold stripChars
  have hm : List.dropWhile isSpaceB (List.dropWhile isSpaceB l)
      = List.dropWhile isSpaceB l := List.dropWhile_idempotent _ _
  have h1 : List.dropWhile isSpaceB
      (List.rdropWhile isSpaceB (List.dropWhile isSpaceB l))
      = List.rdropWhile isSpaceB (List.dropWhile isSpaceB l) := by
    rcases hpre : List.rdropWhile isSpaceB (List.dropWhile isSpaceB l) with _ | ⟨a, t⟩
    · simp
    · obtain ⟨s, hs⟩ := List.rdropWhile_prefix isSpaceB (List.dropWhile isSpaceB l)
      rw [hpre] at hs
      have hmcons : List.dropWhile isSpaceB l = a :: (t ++ s) := by
        rw [← hs]; rfl
      have hfix : List.dropWhile isSpaceB (a :: (t ++ s)) = a :: (t ++ s) := by
        rw [← hmcons]; exact hm
      have hpa : isSpaceB a = false := dropWhile_cons_head_false hfix
      exact List.dropWhile_cons_of_neg (by simp [hpa])
  rw [h1]
  exact List.rdropWhile_idempotent _ _

theorem pyStrip_idem (s : String) : pyStrip (pyStrip s) = pyStrip s := by
  unfold pyStrip
  exact congrArg String.mk (stripChars_idem s.data)

theorem getField_setField_same (d : StoredDoc) (k : String) (v : BsonValue) :
    getField (setField d k v) k = some v := by
  induction d with
  | nil => simp [setField, getField]
  | cons kv rest ih =>
      obtain ⟨k1, v1⟩ := kv
      by_cases h : k1 = k
      · simp [setField, h, getField]
      · simp [setField, h, getField, ih]

theorem getField_setField_other (d : StoredDoc) (k k1 : String) (v : BsonValue)
    (hne : k1 ≠ k) : getField (setField d k v) k1 = getField d k1 := by
  induction d with
  | nil => simp [setField, getField, Ne.symm hne]
  | cons kv rest ih =>
      obtain ⟨k2, v2⟩ := kv
      by_cases h : k2 = k
      · subst h
        simp [setField, getField, Ne.symm hne]
      · simp [setField, h, getField, ih]

theorem getField_setFields_not_mem (d : StoredDoc)
    (fields : List (String × BsonValue)) (k : String)
    (hk : k ∉ fields.map Prod.fst) :
    getField (setFields d fields) k = getField d k := by
  induction fields generalizing d with
  | nil => rfl
  | cons kv rest ih =>
      obtain ⟨k1, v1⟩ := kv
      simp only [List.map_cons, List.mem_cons] at hk
      push_neg at hk
      show getField (setFields (setField d k1 v1) rest) k = getField d k
      rw [ih _ hk.2, getField_setField_other _ _ _ _ hk.1]

theorem getField_setFields_head (d : StoredDoc) (k : String) (v : BsonValue)
    (rest : List (String × BsonValue)) (hk : k ∉ rest.map Prod.fst) :
    getField (setFields d ((k, v) :: rest)) k = some v := by
  show getField (setFields (setField d k v) rest) k = some v
  rw [getField_setFields_not_mem _ _ _ hk]
  exact getField_setField_same d k v

theorem setField_already (d : StoredDoc) (k : String) (v : BsonValue)
    (h : getField d k = some v) : setField d k v = d := by
  induction d with
  | nil => simp [getField] at h
  | cons kv rest ih =>
      obtain ⟨k1, v1⟩ := kv
      by_cases hkk : k1 = k
      · subst hkk
        have h1 : v1 = v := by simpa [getField] using h
        simp [setField, h1]
      · simp only [getField, if_neg hkk] at h
        simp [setField, hkk, ih h]

theorem setFields_idem (d : StoredDoc) (fields : List (String × BsonValue))
    (hnd : (fields.map Prod.fst).Nodup) :
    setFields (setFields d fields) fields = setFields d fields := by
  induction fields generalizing d with
  | nil => rfl
  | cons kv rest ih =>
      obtain ⟨k, v⟩ := kv
      simp only [List.map_cons, List.nodup_cons] at hnd
      show setFields (setField (setFields (setField d k v) rest) k v) rest
          = setFields (setField d k v) rest
      have hget : getField (setFields (setField d k v) rest) k = some v := by
        rw [getField_setFields_not_mem _ _ _ hnd.1]
        exact getField_setField_same d k v
      rw [setField_already _ _ _ hget]
      exact ih (setField d k v) hnd.2

theorem recordFields_keys (r : InmateRecord) :
    (recordFields r).map Prod.fst
      = ["DC Number", "Name", "Race", "Sex", "Birth Date",
         "Current Prison Sentence History", "Aliases",
         "Incarceration History"] := rfl

theorem matchesKey_setFields_record (d : StoredDoc) (r : InmateRecord) :
    matchesKey (setFields d (recordFields r)) r.dcNumber = true := by
  have hget : getField (setFields d (recordFields r)) "DC Number"
      = some (.str r.dcNumber) := by
    apply getField_setFields_head
    simp
  simp [matchesKey, hget]

theorem update_one_set_idem (coll : Collection) (key : String)
    (fields : List (String × BsonValue))
    (hnd : (fields.map Prod.fst).Nodup)
    (hmk : ∀ d : StoredDoc, matchesKey (setFields d fields) key = true) :
    update_one (update_one coll key fields) key fields
      = update_one coll key fields := by
  induction coll with
  | nil =>
      simp only [update_one]
      rw [if_pos (hmk _), setFields_idem _ _ hnd]
  | cons d rest ih =>
      by_cases h : matchesKey d key = true
      · simp only [update_one, if_pos h, if_pos (hmk d)]
        rw [setFields_idem _ _ hnd]
      · simp only [update_one, if_neg h]
        rw [ih]

theorem update_one_of_absent (coll : Collection) (key : String)
    (fields : List (String × BsonValue)) (h : findDoc coll key = none) :
    update_one coll key fields
      = coll ++ [setFields [("DC Number", .str key)] fields] := by
  induction coll with
  | nil => rfl
  | cons d rest ih =>
      by_cases hm : matchesKey d key = true
      · simp [findDoc, hm] at h
      · simp only [findDoc, if_neg hm] at h
        simp [update_one, hm, ih h]

theorem findDoc_append_match (coll : Collection) (key : String) (d : StoredDoc)
    (h : findDoc coll key = none) (hm : matchesKey d key = true) :
    findDoc (coll ++ [d]) key = some d := by
  induction coll with
  | nil => simp [findDoc, hm]
  | cons d1 rest ih =>
      by_cases hm1 : matchesKey d1 key = true
      · simp [findDoc, hm1] at h
      · simp only [findDoc, if_neg hm1] at h
        simp [findDoc, hm1, ih h]

theorem update_one_append_match (coll : Collection) (key : String)
    (d : StoredDoc) (fields : List (String × BsonValue))
    (h : findDoc coll key = none) (hm : matchesKey d key = true) :
    update_one (coll ++ [d]) key fields = coll ++ [setFields d fields] := by
  induction coll with
  | nil => simp [update_one, hm]
  | cons d1 rest ih =>
      by_cases hm1 : matchesKey d1 key = true
      · simp [findDoc, hm1] at h
      · simp only [findDoc, if_neg hm1] at h
        simp [update_one, hm1, ih h]

theorem setFields_fresh_record (x : BsonValue) (r : InmateRecord) :
    setFields [("DC Number", x)] (recordFields r) = recordFields r := rfl

theorem setFields_record_record (r1 r2 : InmateRecord) :
    setFields (recordFields r1) (recordFields r2) = recordFields r2 := rfl

theorem matchesKey_recordFields (r : InmateRecord) (key : String)
    (h : r.dcNumber = key) : matchesKey (recordFields r) key = true := by
  simp [matchesKey, recordFields, getField, h]

theorem rowToSentence_of_long (row : List String) (h : 6 ≤ row.length) :
    rowToSentence row = some (sentenceOfRow row) := by
  match row with
  | [] => simp at h
  | [c0] => simp at h
  | [c0, c1] => simp at h
  | [c0, c1, c2] => simp at h
  | [c0, c1, c2, c3] => simp at h
  | [c0, c1, c2, c3, c4] => simp at h
  | c0 :: c1 :: c2 :: c3 :: c4 :: c5 :: rest => rfl

theorem rowsToSentences_of_long (rows : List (List String))
    (h : ∀ row ∈ rows, 6 ≤ row.length) :
    rowsToSentences rows = some (rows.map sentenceOfRow) := by
  induction rows with
  | nil => rfl
  | cons row rest ih =>
      have h1 : rowToSentence row = some (sentenceOfRow row) :=
        rowToSentence_of_long row (h row (by simp))
      have h2 : rowsToSentences rest = some (rest.map sentenceOfRow) :=
        ih fun r hr => h r (by simp [hr])
      simp [rowsToSentences, h1, h2]

theorem rowToIncarceration_of_long (row : List String) (h : 2 ≤ row.length) :
    rowToIncarceration row = some (incarcerationOfRow row) := by
  match row with
  | [] => simp at h
  | [c0] => simp at h
  | c0 :: c1 :: rest => rfl

theorem rowsToIncarcerations_of_long (rows : List (List String))
    (h : ∀ row ∈ rows, 2 ≤ row.length) :
    rowsToIncarcerations rows = some (rows.map incarcerationOfRow) := by
  induction rows with
  | nil => rfl
  | cons row rest ih =>
      have h1 : rowToIncarceration row = some (incarcerationOfRow row) :=
        rowToIncarceration_of_long row (h row (by simp))
      have h2 : rowsToIncarcerations rest = some (rest.map incarcerationOfRow) :=
        ih fun r hr => h r (by simp [hr])
      simp [rowsToIncarcerations, h1, h2]

theorem rowToSentence_trimmed (row : List String) (e : SentenceEntry)
    (h : rowToSentence row = some e) : trimmedSentence e := by
  match row with
  | [] => exact Option.noConfusion h
  | [c0] => exact Option.noConfusion h
  | [c0, c1] => exact Option.noConfusion h
  | [c0, c1, c2] => exact Option.noConfusion h
  | [c0, c1, c2, c3] => exact Option.noConfusion h
  | [c0, c1, c2, c3, c4] => exact Option.noConfusion h
  | c0 :: c1 :: c2 :: c3 :: c4 :: c5 :: rest =>
      have h2 : SentenceEntry.mk (pyStrip c0) (pyStrip c1) (pyStrip c2)
          (pyStrip c3) (pyStrip c4) (pyStrip c5) = e := by
        simpa [rowToSentence] using h
      rw [← h2]
      exact ⟨pyStrip_idem c0, pyStrip_idem c1, pyStrip_idem c2,
        pyStrip_idem c3, pyStrip_idem c4, pyStrip_idem c5⟩

theorem rowsToSentences_trimmed (rows : List (List String))
    (sh : List SentenceEntry) (h : rowsToSentences rows = some sh) :
    ∀ e ∈ sh, trimmedSentence e := by
  induction rows generalizing sh with
  | nil =>
      simp only [rowsToSentences, Option.some.injEq] at h
      subst h
      simp
  | cons row rest ih =>
      cases hr : rowToSentence row with
      | none => simp [rowsToSentences, hr] at h
      | some e0 =>
        cases hrs : rowsToSentences rest with
        | none => simp [rowsToSentences, hr, hrs] at h
        | some l =>
          simp only [rowsToSentences, hr, hrs, Option.some.injEq] at h
          subst h
          intro e he
          rcases List.mem_cons.mp he with rfl | hmem
          · exact rowToSentence_trimmed row e hr
          · exact ih l hrs e hmem

theorem rowToIncarceration_trimmed (row : List String)
    (e : IncarcerationEntry) (h : rowToIncarceration row = some e) :
    trimmedIncarceration e := by
  match row with
  | [] => exact Option.noConfusion h
  | [c0] => exact Option.noConfusion h
  | c0 :: c1 :: rest =>
      have h2 : IncarcerationEntry.mk (pyStrip c0) (pyStrip c1) = e := by
        simpa [rowToIncarceration] using h
      rw [← h2]
      exact ⟨pyStrip_idem c0, pyStrip_idem c1⟩

theorem rowsToIncarcerations_trimmed (rows : List (List String))
    (ihl : List IncarcerationEntry) (h : rowsToIncarcerations rows = some ihl) :
    ∀ e ∈ ihl, trimmedIncarceration e := by
  induction rows generalizing ihl with
  | nil =>
      simp only [rowsToIncarcerations, Option.some.injEq] at h
      subst h
      simp
  | cons row rest ih =>
      cases hr : rowToIncarceration row with
      | none => simp [rowsToIncarcerations, hr] at h
      | some e0 =>
        cases hrs : rowsToIncarcerations rest with
        | none => simp [rowsToIncarcerations, hr, hrs] at h
        | some l =>
          simp only [rowsToIncarcerations, hr, hrs, Option.some.injEq] at h
          subst h
          intro e he
          rcases List.mem_cons.mp he with rfl | hmem
          · exact rowToIncarceration_trimmed row e hr
          · exact ih l hrs e hmem

/-! ## Claim theorems -/

/-- C7: upsert of an identical record is idempotent: `upsert(r)` twice
leaves the store exactly as a single `upsert(r)` does, for every record
and every starting collection. -/
theorem upsert_idempotent (coll : Collection) (r : InmateRecord) :
    upsert (upsert coll r) r = upsert coll r := by
  unfold upsert
  apply update_one_set_idem
  · rw [recordFields_keys]; decide
  · intro d
    exact matchesKey_setFields_record d r

/-- C1: after `upsert(r1)` then `upsert(r2)` under one shared DC Number
key, the store holds under that key exactly the document of `r2`: every
field is replaced and no field of `r1` survives. -/
theorem upsert_replaces_whole_document (coll : Collection)
    (r1 r2 : InmateRecord) (hkey : r1.dcNumber = r2.dcNumber)
    (habsent : findDoc coll r2.dcNumber = none) :
    findDoc (upsert (upsert coll r1) r2) r2.dcNumber
      = some (recordFields r2) := by
  unfold upsert
  rw [hkey, update_one_of_absent _ _ _ habsent, setFields_fresh_record,
    update_one_append_match _ _ _ _ habsent (matchesKey_recordFields r1 _ hkey),
    setFields_record_record]
  exact findDoc_append_match _ _ _ habsent (matchesKey_recordFields r2 _ rfl)

theorem upsert_replaces_whole_document_witness :
    findDoc (upsert (upsert [] scenarioARec) recB) recB.dcNumber
      = some (recordFields recB) :=
  upsert_replaces_whole_document [] scenarioARec recB rfl rfl

/-- C8: the empty key is rejected synchronously with the Input Error
warning: no worker is spawned, so no fetch happens and the collection
is untouched, whatever the document, the store behaviour and the store
contents. -/
theorem empty_key_rejected_synchronously (doc : SoupDoc) (storeOk : Bool)
    (coll : Collection) :
    fetch_and_display_inmate_details "" doc storeOk coll
      = DispatchResult.inputWarning := rfl

/-- C9: a finished worker delivers its outcome, record or error,
through exactly one marshalled handoff queued via `root.after`; the
worker never calls the presentation sink directly. -/
theorem worker_outcome_marshalled (dc : String) (doc : SoupDoc)
    (storeOk : Bool) (coll : Collection) :
    ((fetch_and_store_inmate_details dc doc storeOk coll).2.all
        isMarshalEffect) = true
      ∧ (fetch_and_store_inmate_details dc doc storeOk coll).2.length = 1 := by
  cases h : fetch_inmate_details dc doc <;>
    simp [fetch_and_store_inmate_details, h, isMarshalEffect]

/-- C2 counterexample: `docNoTitle` lacks the detail-page marker (there
is no title text at all, the malformed-response case), yet extraction
raises an attribute error instead of returning the empty-dict outcome
that realises `DocumentStructureError`; so the not-found and
malformed-response cases are not covered alike. -/
theorem marker_absent_counterexample :
    fetch_inmate_details "123456" docNoTitle = ExtractResult.raised
      ∧ ExtractResult.raised ≠ ExtractResult.emptyDict := by decide

/-- C2 amended: a fetched document whose title text is present but
lacks the detail-page marker makes extraction return the empty dict
(the outcome the spec calls `DocumentStructureError`) and no record;
a document with no title text makes the extractor raise instead, and
again no record is produced. -/
theorem marker_absent_behaviour (dc : String) (doc : SoupDoc) :
    (∀ t : String, doc.titleStr = some t → hasMarker t = false →
        fetch_inmate_details dc doc = ExtractResult.emptyDict)
      ∧ (doc.titleStr = none →
          fetch_inmate_details dc doc = ExtractResult.raised)
      ∧ ((doc.titleStr = none ∨
            ∃ t, doc.titleStr = some t ∧ hasMarker t = false) →
          ∀ r, fetch_inmate_details dc doc ≠ ExtractResult.ok r) := by
  refine ⟨?_, ?_, ?_⟩
  · intro t ht hmk
    simp [fetch_inmate_details, ht, hmk]
  · intro h
    simp [fetch_inmate_details, h]
  · rintro (h | ⟨t, ht, hmk⟩) r
    · simp [fetch_inmate_details, h]
    · simp [fetch_inmate_details, ht, hmk]

theorem marker_absent_behaviour_witness :
    fetch_inmate_details "123456" docNoMarker = ExtractResult.emptyDict :=
  (marker_absent_behaviour "123456" docNoMarker).1 "Offender Search" rfl
    (by decide)

/-- C4 counterexample: with the store failing (unreachable server or
rejected write), the Scenario A worker run still delivers the record as
a success handoff and no failure notification: the storage error was
swallowed inside `store_inmate_details` and never surfaced to the
orchestrator. -/
theorem storage_failure_counterexample :
    fetch_and_store_inmate_details "123456" scenarioADoc false []
      = ([], [Effect.marshal (Outcome.record scenarioARec)]) := by decide

/-- C4 amended: when persistence fails, `store_inmate_details` catches
the exception and only logs it; nothing is surfaced to the
orchestrator, no retry happens, and the orchestrator still marshals the
record to the presentation sink as a success while the collection is
left unchanged. -/
theorem storage_failure_swallowed (dc : String) (doc : SoupDoc)
    (coll : Collection) (r : InmateRecord)
    (h : fetch_inmate_details dc doc = ExtractResult.ok r) :
    fetch_and_store_inmate_details dc doc false coll
      = (coll, [Effect.marshal (Outcome.record r)]) := by
  simp [fetch_and_store_inmate_details, h, store_inmate_details]

theorem storage_failure_swallowed_witness :
    fetch_and_store_inmate_details "654321" scenarioADoc false
        [recordFields recB]
      = ([recordFields recB],
         [Effect.marshal (Outcome.record { scenarioARec with
            dcNumber := "654321" })]) :=
  storage_failure_swallowed "654321" scenarioADoc [recordFields recB]
    { scenarioARec with dcNumber := "654321" } (by decide)

/-- C3 counterexample: the Scenario C document (detail marker present,
no Race row) makes the extractor raise an attribute error rather than
return the `None` outcome that realises `MissingRequiredField`. -/
theorem missing_race_label_counterexample :
    fetch_inmate_details "123456" docNoRaceLabel = ExtractResult.raised
      ∧ ExtractResult.raised ≠ ExtractResult.retNone := by decide

/-- C3 amended: on a document bearing the marker, a missing Name anchor
yields the `None` return (the outcome the spec calls
`MissingRequiredField`); so does an empty trimmed Name or Race value
when all four labelled anchors are present.  A present Name anchor with
the Race anchor missing instead makes the extractor raise.  In every
one of these cases no record is produced and the collection is not
mutated. -/
theorem missing_required_field_behaviour (dc : String) (doc : SoupDoc)
    (storeOk : Bool) (coll : Collection) (t : String)
    (ht : doc.titleStr = some t) (hmk : hasMarker t = true) :
    (doc.nameTh = none →
        fetch_inmate_details dc doc = ExtractResult.retNone)
      ∧ (∀ ns rs ss bs : String, doc.nameTh = some ns →
          doc.raceTh = some rs → doc.sexTh = some ss →
          doc.birthTh = some bs → (pyStrip ns = "" ∨ pyStrip rs = "") →
          fetch_inmate_details dc doc = ExtractResult.retNone)
      ∧ (∀ ns : String, doc.nameTh = some ns → doc.raceTh = none →
          fetch_inmate_details dc doc = ExtractResult.raised)
      ∧ ((fetch_inmate_details dc doc = ExtractResult.retNone ∨
            fetch_inmate_details dc doc = ExtractResult.raised) →
          (∀ r, fetch_inmate_details dc doc ≠ ExtractResult.ok r)
            ∧ (fetch_and_store_inmate_details dc doc storeOk coll).1
                = coll) := by
  refine ⟨?_, ?_, ?_, ?_⟩
  · intro hn
    simp [fetch_inmate_details, ht, hmk, hn]
  · intro ns rs ss bs hn hr hs hb hempty
    simp [fetch_inmate_details, ht, hmk, hn, hr, hs, hb, hempty]
  · intro ns hn hr
    simp [fetch_inmate_details, ht, hmk, hn, hr]
  · rintro (h | h)
    · refine ⟨fun r => by simp [h], ?_⟩
      simp [fetch_and_store_inmate_details, h]
    · refine ⟨fun r => by simp [h], ?_⟩
      simp [fetch_and_store_inmate_details, h]

theorem missing_required_field_behaviour_witness :
    fetch_inmate_details "123456" docEmptyRace = ExtractResult.retNone :=
  (missing_required_field_behaviour "123456" docEmptyRace true []
      "Inmate Population Information Detail" rfl (by decide)).2.1
    "Jane Doe" " " "Female" "1/1/1980" rfl rfl rfl rfl (Or.inr (by decide))

/-- C6 counterexample: a document bearing the marker with every
required field present but no alias block makes extraction raise; it
does not succeed with an empty Aliases string. -/
theorem alias_absent_counterexample :
    fetch_inmate_details "123456" docNoAlias = ExtractResult.raised
      ∧ fetch_inmate_details "123456" docNoAlias
          ≠ ExtractResult.ok { scenarioARec with aliases := "" } := by decide

/-- C6 amended: absence of the alias block is an error path, not an
empty-string default: on a document bearing the marker with the four
labelled anchors present, non-empty essential values and a located
sentence table, a missing alias block makes the extractor raise; the
worker then delivers the caught-error notification and the collection
is untouched. -/
theorem alias_absent_raises (dc : String) (doc : SoupDoc) (storeOk : Bool)
    (coll : Collection) (t ns rs ss bs : String)
    (srows : List (List String))
    (ht : doc.titleStr = some t) (hmk : hasMarker t = true)
    (hn : doc.nameTh = some ns) (hr : doc.raceTh = some rs)
    (hs : doc.sexTh = some ss) (hb : doc.birthTh = some bs)
    (hne : ¬(pyStrip ns = "" ∨ pyStrip rs = ""))
    (hsr : doc.sentenceRows = some srows)
    (hal : doc.aliasP = none) :
    fetch_inmate_details dc doc = ExtractResult.raised
      ∧ (fetch_and_store_inmate_details dc doc storeOk coll).2
          = [Effect.marshal (Outcome.errorMsg "An error occurred")]
      ∧ (fetch_and_store_inmate_details dc doc storeOk coll).1 = coll := by
  have hfetch : fetch_inmate_details dc doc = ExtractResult.raised := by
    cases hrows : rowsToSentences srows.tail with
    | none => simp [fetch_inmate_details, ht, hmk, hn, hr, hs, hb, hne,
        hsr, List.drop_one, hrows]
    | some sh => simp [fetch_inmate_details, ht, hmk, hn, hr, hs, hb, hne,
        hsr, List.drop_one, hrows, hal]
  refine ⟨hfetch, ?_, ?_⟩ <;>
    simp [fetch_and_store_inmate_details, hfetch]

theorem alias_absent_raises_witness :
    fetch_inmate_details "123456" docNoAlias = ExtractResult.raised
      ∧ (fetch_and_store_inmate_details "123456" docNoAlias true []).2
          = [Effect.marshal (Outcome.errorMsg "An error occurred")]
      ∧ (fetch_and_store_inmate_details "123456" docNoAlias true []).1
          = [] :=
  alias_absent_raises "123456" docNoAlias true []
    "Inmate Population Information Detail" "Jane Doe" "White" "Female"
    "1/1/1980"
    [["Offense Date", "Offense", "Sentence Date", "County",
      "Case Number", "Prison Sentence Length"],
     ["1/1/2000", "Theft", "2/1/2000", "Dade", "00-1", "5 Years"]]
    rfl (by decide) rfl rfl rfl rfl (by decide) rfl rfl

/-- C5: on a well-formed detail document (marker present, the four
labelled anchors there, essentials non-empty, both tables located with
rows wide enough), extraction returns the record that maps each
sentence row after the header positionally into the fixed 6-column
schema and each incarceration row into the 2-column schema, in document
order; the worker stores exactly that record and marshals exactly that
record to the sink. -/
theorem wellformed_extraction (dc : String) (doc : SoupDoc)
    (coll : Collection) (t ns rs ss bs al : String)
    (srows irows : List (List String))
    (ht : doc.titleStr = some t) (hmk : hasMarker t = true)
    (hn : doc.nameTh = some ns) (hr : doc.raceTh = some rs)
    (hs : doc.sexTh = some ss) (hb : doc.birthTh = some bs)
    (hne : ¬(pyStrip ns = "" ∨ pyStrip rs = ""))
    (hsr : doc.sentenceRows = some srows)
    (hsl : ∀ row ∈ srows.drop 1, 6 ≤ row.length)
    (hal : doc.aliasP = some al)
    (hir : doc.incarcerationRows = some irows)
    (hil : ∀ row ∈ irows.drop 1, 2 ≤ row.length) :
    fetch_inmate_details dc doc
        = ExtractResult.ok (extractedRecord dc ns rs ss bs al srows irows)
      ∧ fetch_and_store_inmate_details dc doc true coll
          = (upsert coll (extractedRecord dc ns rs ss bs al srows irows),
             [Effect.marshal
               (Outcome.record (extractedRecord dc ns rs ss bs al srows irows))]) := by
  have hsh : rowsToSentences (srows.drop 1)
      = some ((srows.drop 1).map sentenceOfRow) :=
    rowsToSentences_of_long _ hsl
  have hih : rowsToIncarcerations (irows.drop 1)
      = some ((irows.drop 1).map incarcerationOfRow) :=
    rowsToIncarcerations_of_long _ hil
  have hfetch : fetch_inmate_details dc doc
      = ExtractResult.ok (extractedRecord dc ns rs ss bs al srows irows) := by
    simp only [List.drop_one] at hsh hih
    simp [fetch_inmate_details, ht, hmk, hn, hr, hs, hb, hne, hsr,
      List.drop_one, hsh, hal, hir, hih, extractedRecord]
  refine ⟨hfetch, ?_⟩
  simp [fetch_and_store_inmate_details, hfetch, store_inmate_details]

theorem wellformed_extraction_witness :
    fetch_inmate_details "123456" scenarioADoc = ExtractResult.ok scenarioARec
      ∧ scenarioARec.sentenceHistory.length = 1
      ∧ scenarioARec.incarcerationHistory.length = 0
      ∧ fetch_and_store_inmate_details "123456" scenarioADoc true []
          = ([recordFields scenarioARec],
             [Effect.marshal (Outcome.record scenarioARec)]) := by
  have h := wellformed_extraction "123456" scenarioADoc []
    "Inmate Population Information Detail" "Jane Doe" "White" "Female"
    "1/1/1980" "Jane D."
    [["Offense Date", "Offense", "Sentence Date", "County",
      "Case Number", "Prison Sentence Length"],
     ["1/1/2000", "Theft", "2/1/2000", "Dade", "00-1", "5 Years"]]
    [["Date In-Custody", "Date Out-Custody"]]
    rfl (by decide) rfl rfl rfl rfl (by decide) rfl
    (by intro row hrow; simp only [List.drop_one, List.tail_cons,
          List.mem_singleton] at hrow; subst hrow; decide)
    rfl rfl
    (by intro row hrow; simp at hrow)
  refine ⟨?_, by decide, by decide, ?_⟩
  · rw [h.1]; decide
  · rw [h.2]; decide

/-- C10: every record a successful extraction returns is fully
whitespace-trimmed: each scalar field (Name, Race, Sex, Birth Date,
Aliases) and each cell of each history entry equals itself with leading
and trailing whitespace removed. -/
theorem extracted_record_trimmed (dc : String) (doc : SoupDoc)
    (r : InmateRecord) (h : fetch_inmate_details dc doc = ExtractResult.ok r) :
    trimmedRecord r := by
  unfold fetch_inmate_details at h
  rcases hts : doc.titleStr with _ | t <;> simp only [hts] at h
  · exact ExtractResult.noConfusion h
  by_cases hmk : hasMarker t = true
  case neg => rw [if_neg hmk] at h; exact ExtractResult.noConfusion h
  rw [if_pos hmk] at h
  rcases hn : doc.nameTh with _ | ns <;> simp only [hn] at h
  · exact ExtractResult.noConfusion h
  rcases hr : doc.raceTh with _ | rs <;> simp only [hr] at h
  · exact ExtractResult.noConfusion h
  rcases hsx : doc.sexTh with _ | ss <;> simp only [hsx] at h
  · exact ExtractResult.noConfusion h
  rcases hb : doc.birthTh with _ | bs <;> simp only [hb] at h
  · exact ExtractResult.noConfusion h
  by_cases hne : (pyStrip ns = "" ∨ pyStrip rs = "")
  case pos => rw [if_pos hne] at h; exact ExtractResult.noConfusion h
  rw [if_neg hne] at h
  rcases hsr : doc.sentenceRows with _ | srows <;> simp only [hsr] at h
  · exact ExtractResult.noConfusion h
  rcases hsh : rowsToSentences (srows.drop 1) with _ | sh <;>
    simp only [hsh] at h
  · exact ExtractResult.noConfusion h
  rcases hal : doc.aliasP with _ | al <;> simp only [hal] at h
  · exact ExtractResult.noConfusion h
  rcases hir : doc.incarcerationRows with _ | irows <;> simp only [hir] at h
  · exact ExtractResult.noConfusion h
  rcases hih : rowsToIncarcerations (irows.drop 1) with _ | ihl <;>
    simp only [hih] at h
  · exact ExtractResult.noConfusion h
  simp only [ExtractResult.ok.injEq] at h
  subst h
  refine ⟨pyStrip_idem ns, pyStrip_idem rs, pyStrip_idem ss, pyStrip_idem bs,
    pyStrip_idem al, ?_, ?_⟩
  · exact rowsToSentences_trimmed _ _ hsh
  · exact rowsToIncarcerations_trimmed _ _ hih

theorem extracted_record_trimmed_witness : trimmedRecord scenarioARec :=
  extracted_record_trimmed "123456" scenarioADoc scenarioARec (by decide)
